import Mathlib

/-!
Verification of the Airtable datasource of the llana repository
(src/datasources/airtable.datasource.ts) against its natural-language
specification.  The TypeScript class is shallowly embedded: JavaScript
values become the inductive `JsVal`, remote requests are recorded in an
explicit trace, fallible code returns `Except`, and the remote Airtable
service is modelled by a `World` structure (its catalog, its record
store, and the JavaScript runtime facilities the code uses, such as
`Date` parsing and the current clock).
-/

set_option maxHeartbeats 1000000
set_option maxRecDepth 4000

namespace LlanaAirtable

/-- JavaScript values that flow through the datasource: strings, numbers,
booleans, null and arrays.  (Nested objects never reach the code paths
under verification as field values.) -/
inductive JsVal where
  | str (s : String)
  | num (n : Int)
  | bool (b : Bool)
  | null
  | arr (xs : List JsVal)

/-- JavaScript truthiness for the values above (`if (x)`). -/
def jsTruthy : JsVal → Bool
  | .str s => s ≠ ""
  | .num n => n ≠ 0
  | .bool b => b
  | .null => false
  | .arr _ => true

/-- Strict equality test `x === false` used by `whereToFilter`. -/
def isFalseLit : JsVal → Bool
  | .bool false => true
  | _ => false

/-- Strict equality test `x === null` used by `formatField`. -/
def isNullLit : JsVal → Bool
  | .null => true
  | _ => false

/-- JavaScript string coercion used by the template literals that
interpolate predicate values (arrays join their elements with
commas). -/
def jsValToString : JsVal → String
  | .str s => s
  | .num n => toString n
  | .bool true => "true"
  | .bool false => "false"
  | .null => "null"
  | .arr xs => String.intercalate "," (xs.map fun v =>
      match v with
      | .str s => s
      | .num n => toString n
      | .bool true => "true"
      | .bool false => "false"
      | .null => ""
      | .arr _ => "")

/-- The canonical column types of `DataSourceColumnType`
(src/types/datasource.types). -/
inductive DataSourceColumnType where
  | STRING | NUMBER | BOOLEAN | DATE | ENUM | JSON | UNKNOWN
deriving DecidableEq, BEq

/-- The native Airtable column types (`AirtableColumnType`), reconstructed
from their uses in the datasource file. -/
inductive AirtableColumnType where
  | EMAIL | URL | BARCODE | MULTILINE_TEXT | RICH_TEXT | DURATION
  | PHONE_NUMBER | SINGLE_LINE_TEXT
  | AUTO_NUMBER | NUMBER | COUNT | PERCENT | CURRENCY | RATING
  | CHECKBOX
  | DATE | DATE_TIME | CREATED_TIME | LAST_MODIFIED_TIME
  | MULTIPLE_ATTACHMENTS | MULTIPLE_COLLABORATORS | MULTIPLE_RECORD_LINKS
  | MULTIPLE_LOOKUP_VALUES | MULTIPLE_SELECTS | SINGLE_COLLABORATOR
  | FORMULA | ROLLUP | CREATED_BY | LAST_MODIFIED_BY | BUTTON
  | EXTERNAL_SYNC_SOURCE | AI_TEXT
  | SINGLE_SELECT
deriving DecidableEq, BEq

/-- The operators of the abstract where-predicate enum (`WhereOperator`).
The source member `in` is spelt `in_` because `in` is a Lean keyword. -/
inductive WhereOperator where
  | equals | not_equals | gt | gte | lt | lte
  | like | not_like | search
  | in_ | not_in | null | not_null
deriving DecidableEq, BEq

/-- A native Airtable field from the metadata catalog; `linkedTableId`
is only meaningful when `type` is `MULTIPLE_RECORD_LINKS` (the source
reads `field.options.linkedTableId` exactly there). -/
structure AirField where
  name : String
  type : AirtableColumnType
  linkedTableId : String := ""
deriving DecidableEq, BEq

/-- A table from the Airtable metadata catalog. -/
structure AirTable where
  id : String
  name : String
  fields : List AirField
deriving DecidableEq, BEq

/-- A canonical schema column (`DataSourceSchemaColumn`).  The `default`
and informational `extra` payloads of the source are not read by any
operation under verification and carry no behaviour, so they are kept as
the original native field when one exists. -/
structure Column where
  field : String
  type : DataSourceColumnType
  nullable : Bool
  required : Bool
  primary_key : Bool
  unique_key : Bool
  foreign_key : Bool
  extra : Option AirField := none
deriving DecidableEq, BEq

/-- A canonical relation (`DataSourceSchemaRelation`). -/
structure Relation where
  table : String
  column : String
  org_table : String
  org_column : String
deriving DecidableEq, BEq

/-- A canonical schema (`DataSourceSchema`). -/
structure Schema where
  table : String
  columns : List Column
  primary_key : String
  relations : List Relation
deriving DecidableEq, BEq

/-- An abstract where predicate (`DataSourceWhere`).  The source field
`where` is a Lean keyword, hence `where_` at use sites. -/
structure Where where
  column : String
  operator : WhereOperator
  value : JsVal

/-- `fieldMapper`: native Airtable type to canonical type (total, with
`UNKNOWN` as the fallback), transcribed from the source switch. -/
def fieldMapper : AirtableColumnType → DataSourceColumnType
  | .EMAIL | .URL | .BARCODE | .MULTILINE_TEXT | .RICH_TEXT | .DURATION
  | .PHONE_NUMBER | .SINGLE_LINE_TEXT => .STRING
  | .AUTO_NUMBER | .NUMBER | .COUNT | .PERCENT | .CURRENCY | .RATING => .NUMBER
  | .CHECKBOX => .BOOLEAN
  | .DATE | .DATE_TIME | .CREATED_TIME | .LAST_MODIFIED_TIME => .DATE
  | .MULTIPLE_ATTACHMENTS | .MULTIPLE_COLLABORATORS | .MULTIPLE_RECORD_LINKS
  | .MULTIPLE_LOOKUP_VALUES | .MULTIPLE_SELECTS | .SINGLE_COLLABORATOR
  | .FORMULA | .ROLLUP | .CREATED_BY | .LAST_MODIFIED_BY | .BUTTON
  | .EXTERNAL_SYNC_SOURCE | .AI_TEXT => .JSON
  | .SINGLE_SELECT => .ENUM

/-- Errors raised by the embedded JavaScript code: `thrown` for
`throw new Error(msg)`, `typeError` for a property access on
`undefined`, `wrapped` for the catch-and-rethrow pattern
`throw new Error(e)`, and `nonterm` for exhausted recursion fuel
(modelling divergence of the original code). -/
inductive JsErr where
  | thrown (msg : String)
  | typeError (msg : String)
  | wrapped (e : JsErr)
  | nonterm
deriving DecidableEq, BEq

/-- Wrap an error the way a catch block rethrows it; divergence is not
catchable and passes through. -/
def wrapJs : JsErr → JsErr
  | .nonterm => .nonterm
  | e => .wrapped e

/-! ## Filter Translator: `whereToFilter`

The source renders each supported predicate as a fragment ending in a
comma, concatenates the fragments, removes the final character with
`slice(0, -1)` and wraps the result in `AND(...)` when more than one
predicate was given.  It also rewrites, in place, the value of a
boolean-typed predicate from `false` to the empty string before
rendering. -/

/-- JavaScript `s.slice(0, -1)`: drop the last character. -/
def jsDropLastChar (s : String) : String :=
  String.mk s.toList.dropLast

/-- One iteration fragment of the `whereToFilter` switch: the rendered
expression followed by a comma for a supported operator, the empty
string for an unsupported one (which the source logs and skips). -/
def renderPiece (w : Where) : String :=
  match w.operator with
  | .equals => "\x7b" ++ w.column ++ "\x7d=\"" ++ jsValToString w.value ++ "\","
  | .not_equals => "\x7b" ++ w.column ++ "\x7d!=\"" ++ jsValToString w.value ++ "\","
  | .gt => "\x7b" ++ w.column ++ "\x7d>\"" ++ jsValToString w.value ++ "\","
  | .gte => "\x7b" ++ w.column ++ "\x7d>=\"" ++ jsValToString w.value ++ "\","
  | .lt => "\x7b" ++ w.column ++ "\x7d<\"" ++ jsValToString w.value ++ "\","
  | .lte => "\x7b" ++ w.column ++ "\x7d<=\"" ++ jsValToString w.value ++ "\","
  | .like | .search => "SEARCH(\"" ++ jsValToString w.value ++ "\",\x7b" ++ w.column ++ "\x7d),"
  | .not_like => "NOT(SEARCH(\"" ++ jsValToString w.value ++ "\",\x7b" ++ w.column ++ "\x7d)),"
  | .in_ | .not_in | .null | .not_null => ""

/-- The loop body of `whereToFilter`: looks up the column schema (a
missing column makes the source dereference `undefined`), applies the
in-place boolean-false rewrite, and appends the rendered fragment.  The
second accumulator collects the (possibly rewritten) predicates, which
in the source is the mutation of the argument array. -/
def wtfLoop (schema : Schema) : List Where → String → List Where →
    Except JsErr (String × List Where)
  | [], acc, done => .ok (acc, done.reverse)
  | w :: rest, acc, done =>
    match schema.columns.find? (fun c => c.field == w.column) with
    | none => .error (.typeError "Cannot read properties of undefined reading type")
    | some col =>
      let w' := if col.type == DataSourceColumnType.BOOLEAN && isFalseLit w.value then
          { w with value := JsVal.str "" } else w
      wtfLoop schema rest (acc ++ renderPiece w') (w' :: done)

/-- `whereToFilter(where, schema)`: returns the filter expression together
with the predicate list as left behind by the in-place value rewrites. -/
def whereToFilter (ws : List Where) (schema : Schema) :
    Except JsErr (String × List Where) :=
  if ws.length == 0 then .ok ("", ws)
  else
    match wtfLoop schema ws "" [] with
    | .error e => .error e
    | .ok (acc, ws') =>
      let filter := jsDropLastChar acc
      if ws.length > 1 then
        .ok (if filter ≠ "" then "AND(" ++ filter ++ ")" else "", ws')
      else
        .ok (filter, ws')

/-! Specification-side characterization of `whereToFilter`, used to state
the amended claims C4 and C7. -/

/-- The boolean-false value rewrite a single predicate undergoes. -/
def rewriteBoolFalse (schema : Schema) (w : Where) : Where :=
  match schema.columns.find? (fun c => c.field == w.column) with
  | some col =>
    if col.type == DataSourceColumnType.BOOLEAN && isFalseLit w.value then
      { w with value := JsVal.str "" } else w
  | none => w

/-- Whether the backend supports a predicate operator. -/
def isSupportedOp : WhereOperator → Bool
  | .in_ | .not_in | .null | .not_null => false
  | _ => true

/-- The rendered expression of one predicate (no trailing comma), absent
for an unsupported operator. -/
def renderExpr (w : Where) : Option String :=
  match w.operator with
  | .equals => some ("\x7b" ++ w.column ++ "\x7d=\"" ++ jsValToString w.value ++ "\"")
  | .not_equals => some ("\x7b" ++ w.column ++ "\x7d!=\"" ++ jsValToString w.value ++ "\"")
  | .gt => some ("\x7b" ++ w.column ++ "\x7d>\"" ++ jsValToString w.value ++ "\"")
  | .gte => some ("\x7b" ++ w.column ++ "\x7d>=\"" ++ jsValToString w.value ++ "\"")
  | .lt => some ("\x7b" ++ w.column ++ "\x7d<\"" ++ jsValToString w.value ++ "\"")
  | .lte => some ("\x7b" ++ w.column ++ "\x7d<=\"" ++ jsValToString w.value ++ "\"")
  | .like | .search => some ("SEARCH(\"" ++ jsValToString w.value ++ "\",\x7b" ++ w.column ++ "\x7d)")
  | .not_like => some ("NOT(SEARCH(\"" ++ jsValToString w.value ++ "\",\x7b" ++ w.column ++ "\x7d))")
  | .in_ | .not_in | .null | .not_null => none

/-- The rendered expressions of the supported predicates of a list, after
the boolean-false rewrite. -/
def supportedExprs (schema : Schema) (ws : List Where) : List String :=
  ws.filterMap (fun w => renderExpr (rewriteBoolFalse schema w))

/-- Join expressions with exactly one comma between consecutive terms and
no trailing separator. -/
def commaJoin : List String → String
  | [] => ""
  | [e] => e
  | e :: rest => e ++ "," ++ commaJoin rest

/-- The filter expression `whereToFilter` produces, stated the way the
specification describes it: a single predicate renders raw, two or more
render wrapped in `AND(...)`, predicates with unsupported operators are
dropped, and when nothing remains the expression is empty. -/
def wtfSpec (schema : Schema) (ws : List Where) : String :=
  let es := supportedExprs schema ws
  if ws.length ≤ 1 then commaJoin es
  else if es.isEmpty then "" else "AND(" ++ commaJoin es ++ ")"

/-- Left-to-right concatenation of rendered fragments, the shape the
loop accumulator takes. -/
def concatPieces : List String → String
  | [] => ""
  | p :: rest => p ++ concatPieces rest

theorem quote_comma_lit : ("\"" : String) ++ "," = "\"," := rfl

theorem paren_comma_lit : ("\x7d)" : String) ++ "," = "\x7d)," := rfl

theorem parens_comma_lit : ("\x7d))" : String) ++ "," = "\x7d))," := rfl

theorem renderPiece_eq (w : Where) :
    renderPiece w = ((renderExpr w).map (· ++ ",")).getD "" := by
  cases h : w.operator <;>
    simp [renderPiece, renderExpr, h, String.append_assoc,
      quote_comma_lit, paren_comma_lit, parens_comma_lit]

theorem concatPieces_append (a b : List String) :
    concatPieces (a ++ b) = concatPieces a ++ concatPieces b := by
  induction a with
  | nil => simp [concatPieces]
  | cons p rest ih => simp [concatPieces, ih, String.append_assoc]

theorem append_comma_data_ne (e s : String) : ((e ++ ",") ++ s).data ≠ [] := by
  rw [String.data_append, String.data_append]
  intro h
  rcases List.append_eq_nil.mp h with ⟨h1, _⟩
  rcases List.append_eq_nil.mp h1 with ⟨_, h3⟩
  exact (by decide : (",".data : List Char) ≠ []) h3

theorem jsDropLastChar_append_of_ne (a b : String) (h : b.data ≠ []) :
    jsDropLastChar (a ++ b) = a ++ jsDropLastChar b := by
  show String.mk ((a ++ b).data).dropLast = a ++ String.mk b.data.dropLast
  rw [String.data_append]
  have hemp : b.data.isEmpty = false := by
    simp [List.isEmpty_iff, h]
  simp only [List.dropLast_append, hemp, Bool.false_eq_true, if_false]
  rfl

theorem jsDropLastChar_comma (e : String) : jsDropLastChar (e ++ ",") = e := by
  show String.mk ((e ++ ",").data).dropLast = e
  rw [String.data_append]
  show String.mk (e.data ++ [',']).dropLast = e
  rw [List.dropLast_concat]

/-- Dropping the trailing separator from the concatenation of
comma-terminated fragments yields the comma join of the fragments. -/
theorem dropLast_concat_comma (es : List String) :
    jsDropLastChar (concatPieces (es.map (· ++ ","))) = commaJoin es := by
  induction es with
  | nil => rfl
  | cons e rest ih =>
    cases rest with
    | nil =>
      show jsDropLastChar ((e ++ ",") ++ concatPieces []) = commaJoin [e]
      have h0 : (e ++ ",") ++ concatPieces [] = e ++ "," := by
        show (e ++ ",") ++ "" = e ++ ","
        simp
      rw [h0, jsDropLastChar_comma]
      rfl
    | cons e' rest' =>
      show jsDropLastChar ((e ++ ",") ++ concatPieces ((e' :: rest').map (· ++ ","))) =
        commaJoin (e :: e' :: rest')
      have hb : (concatPieces ((e' :: rest').map (· ++ ","))).data ≠ [] := by
        show ((e' ++ ",") ++ concatPieces (rest'.map (· ++ ","))).data ≠ []
        exact append_comma_data_ne e' _
      rw [jsDropLastChar_append_of_ne _ _ hb, ih]
      rfl

/-- Success characterization of the `whereToFilter` loop: when every
predicate column resolves in the schema, the accumulator collects the
rendered fragments of the rewritten predicates and the predicate list is
left rewritten. -/
theorem wtfLoop_char (schema : Schema) (ws : List Where) (acc : String) (done : List Where)
    (h : ∀ w ∈ ws, (schema.columns.find? (fun c => c.field == w.column)).isSome) :
    wtfLoop schema ws acc done =
      .ok (acc ++ concatPieces ((ws.map (rewriteBoolFalse schema)).map renderPiece),
           done.reverse ++ ws.map (rewriteBoolFalse schema)) := by
  induction ws generalizing acc done with
  | nil => simp [wtfLoop, concatPieces]
  | cons w rest ih =>
    have hw := h w (List.mem_cons_self w rest)
    obtain ⟨col, hcol⟩ := Option.isSome_iff_exists.mp hw
    have hrest : ∀ x ∈ rest, (schema.columns.find? (fun c => c.field == x.column)).isSome :=
      fun x hx => h x (List.mem_cons_of_mem w hx)
    have hrw : rewriteBoolFalse schema w =
        (if col.type == DataSourceColumnType.BOOLEAN && isFalseLit w.value then
          { w with value := JsVal.str "" } else w) := by
      rw [rewriteBoolFalse, hcol]
    show wtfLoop schema (w :: rest) acc done = _
    rw [wtfLoop, hcol]
    dsimp only
    rw [ih _ _ hrest]
    simp only [List.map_cons, concatPieces, ← hrw]
    rw [List.reverse_cons, String.append_assoc]
    simp [List.append_assoc]

/-- The rendered fragments of the rewritten predicates are exactly the
comma-terminated supported expressions. -/
theorem pieces_eq_supported (schema : Schema) (ws : List Where) :
    concatPieces ((ws.map (rewriteBoolFalse schema)).map renderPiece) =
      concatPieces ((supportedExprs schema ws).map (· ++ ",")) := by
  induction ws with
  | nil => rfl
  | cons w rest ih =>
    cases h : renderExpr (rewriteBoolFalse schema w) with
    | none =>
      have hs : supportedExprs schema (w :: rest) = supportedExprs schema rest := by
        simp [supportedExprs, List.filterMap_cons, h]
      have hp : renderPiece (rewriteBoolFalse schema w) = "" := by
        rw [renderPiece_eq, h]; rfl
      simp only [List.map_cons, concatPieces, hp, hs, ih]
      show ("" : String) ++ _ = _
      rw [String.empty_append]
    | some e =>
      have hs : supportedExprs schema (w :: rest) = e :: supportedExprs schema rest := by
        simp [supportedExprs, List.filterMap_cons, h]
      have hp : renderPiece (rewriteBoolFalse schema w) = e ++ "," := by
        rw [renderPiece_eq, h]; rfl
      simp only [List.map_cons, concatPieces, hp, hs, ih]

theorem eq_empty_of_data_nil (a : String) (h : a.data = []) : a = "" := by
  cases a with
  | mk d => cases h; rfl

theorem ne_empty_of_left (a b : String) (h : a ≠ "") : a ++ b ≠ "" := by
  intro hx
  have hdata : (a ++ b).data = [] := by rw [hx]
  rw [String.data_append] at hdata
  exact h (eq_empty_of_data_nil a (List.append_eq_nil.mp hdata).1)

theorem renderExpr_ne_empty (w : Where) (e : String) (h : renderExpr w = some e) :
    e ≠ "" := by
  cases hop : w.operator <;> rw [renderExpr, hop] at h
  case in_ => exact absurd h (by simp)
  case not_in => exact absurd h (by simp)
  case null => exact absurd h (by simp)
  case not_null => exact absurd h (by simp)
  all_goals
    rw [← Option.some.inj h]
    repeat apply ne_empty_of_left
    decide

theorem commaJoin_ne_empty (es : List String) (h : ∀ e ∈ es, e ≠ "") (hne : es ≠ []) :
    commaJoin es ≠ "" := by
  cases es with
  | nil => exact absurd rfl hne
  | cons e rest =>
    cases rest with
    | nil => exact h e (List.mem_cons_self e [])
    | cons e' rest' =>
      show (e ++ ",") ++ commaJoin (e' :: rest') ≠ ""
      intro hx
      exact append_comma_data_ne e (commaJoin (e' :: rest')) (by rw [hx])

/-- Success characterization of `whereToFilter`: when every predicate
column resolves in the schema, the function returns the
specification-side expression `wtfSpec` together with the rewritten
predicate list. -/
theorem whereToFilter_char (ws : List Where) (schema : Schema)
    (h : ∀ w ∈ ws, (schema.columns.find? (fun c => c.field == w.column)).isSome) :
    whereToFilter ws schema = .ok (wtfSpec schema ws, ws.map (rewriteBoolFalse schema)) := by
  cases ws with
  | nil => rfl
  | cons w rest =>
    have hloop := wtfLoop_char schema (w :: rest) "" [] h
    have hfilter : jsDropLastChar
        (concatPieces (((w :: rest).map (rewriteBoolFalse schema)).map renderPiece)) =
        commaJoin (supportedExprs schema (w :: rest)) := by
      rw [pieces_eq_supported, dropLast_concat_comma]
    rw [whereToFilter]
    have hlen0 : ((w :: rest).length == 0) = false := by simp
    rw [hlen0]
    simp only [if_false, Bool.false_eq_true]
    rw [hloop]
    simp only [List.reverse_nil, List.nil_append, String.empty_append]
    rw [hfilter]
    cases rest with
    | nil =>
      have hlen1 : ¬ ([w].length > 1) := by simp
      simp only [if_neg hlen1]
      rw [wtfSpec]
      simp
    | cons w2 rest2 =>
      have hlen1 : (w :: w2 :: rest2).length > 1 := by simp
      simp only [if_pos hlen1]
      rw [wtfSpec]
      have hlen2 : ¬ ((w :: w2 :: rest2).length ≤ 1) := by simp
      simp only [if_neg hlen2]
      by_cases hes : supportedExprs schema (w :: w2 :: rest2) = []
      · simp [hes, commaJoin, List.isEmpty_iff]
      · have hjoin : commaJoin (supportedExprs schema (w :: w2 :: rest2)) ≠ "" := by
          apply commaJoin_ne_empty _ _ hes
          intro e he
          rcases List.mem_filterMap.mp he with ⟨x, _, hx⟩
          exact renderExpr_ne_empty _ _ hx
        rw [if_pos hjoin]
        have : (supportedExprs schema (w :: w2 :: rest2)).isEmpty = false := by
          simp [List.isEmpty_iff, hes]
        rw [this]
        simp

/-- A successful `whereToFilter` run found every predicate column. -/
theorem wtfLoop_ok_cols (schema : Schema) :
    ∀ (ws : List Where) (acc : String) (done : List Where) (r : String × List Where),
    wtfLoop schema ws acc done = .ok r →
    ∀ w ∈ ws, (schema.columns.find? (fun c => c.field == w.column)).isSome := by
  intro ws
  induction ws with
  | nil => intro _ _ _ _ w hw; exact absurd hw (List.not_mem_nil w)
  | cons w rest ih =>
    intro acc done r hr x hx
    rw [wtfLoop] at hr
    cases hcol : schema.columns.find? (fun c => c.field == w.column) with
    | none => rw [hcol] at hr; exact absurd hr (by simp)
    | some col =>
      rw [hcol] at hr
      rcases List.mem_cons.mp hx with hxw | hxr
      · rw [hxw, hcol]; rfl
      · exact ih _ _ _ hr x hxr

theorem whereToFilter_ok_cols (ws : List Where) (schema : Schema)
    (f : String) (ws' : List Where) (h : whereToFilter ws schema = .ok (f, ws')) :
    ∀ w ∈ ws, (schema.columns.find? (fun c => c.field == w.column)).isSome := by
  intro w hw
  rw [whereToFilter] at h
  by_cases hnil : (ws.length == 0) = true
  · have hws : ws = [] := List.length_eq_zero.mp (by simpa using hnil)
    rw [hws] at hw
    exact absurd hw (List.not_mem_nil w)
  · rw [if_neg hnil] at h
    cases hl : wtfLoop schema ws "" [] with
    | error e => rw [hl] at h; exact absurd h (by simp)
    | ok r => exact wtfLoop_ok_cols schema ws "" [] r hl w hw

theorem rewriteBoolFalse_column (schema : Schema) (w : Where) :
    (rewriteBoolFalse schema w).column = w.column := by
  rw [rewriteBoolFalse]
  cases schema.columns.find? (fun c => c.field == w.column) with
  | none => rfl
  | some col =>
    by_cases hb : (col.type == DataSourceColumnType.BOOLEAN && isFalseLit w.value) = true
    · simp [hb]
    · simp [hb]

theorem rewriteBoolFalse_idem (schema : Schema) (w : Where) :
    rewriteBoolFalse schema (rewriteBoolFalse schema w) = rewriteBoolFalse schema w := by
  rw [rewriteBoolFalse, rewriteBoolFalse]
  cases hcol : schema.columns.find? (fun c => c.field == w.column) with
  | none => rw [hcol]
  | some col =>
    by_cases hb : (col.type == DataSourceColumnType.BOOLEAN && isFalseLit w.value) = true
    · simp only [hb, if_true, if_pos]
      have : ({ w with value := JsVal.str "" } : Where).column = w.column := rfl
      rw [this, hcol]
      simp [isFalseLit]
    · simp only [hb, if_false, Bool.false_eq_true, if_neg, hcol]

theorem supportedExprs_rewrite (schema : Schema) (ws : List Where) :
    supportedExprs schema (ws.map (rewriteBoolFalse schema)) = supportedExprs schema ws := by
  rw [supportedExprs, supportedExprs, List.filterMap_map]
  apply List.filterMap_congr
  intro w _
  show renderExpr (rewriteBoolFalse schema (rewriteBoolFalse schema w)) = _
  rw [rewriteBoolFalse_idem]

theorem wtfSpec_rewrite (schema : Schema) (ws : List Where) :
    wtfSpec schema (ws.map (rewriteBoolFalse schema)) = wtfSpec schema ws := by
  rw [wtfSpec, wtfSpec, supportedExprs_rewrite, List.length_map]

/-! ## Claims C4 and C7 -/

/-- A plain string column, as `getSchema` produces for text fields. -/
def strCol (f : String) : Column :=
  { field := f, type := .STRING, nullable := true, required := false,
    primary_key := false, unique_key := false, foreign_key := false }

/-- A boolean (checkbox) column. -/
def boolCol (f : String) : Column :=
  { field := f, type := .BOOLEAN, nullable := true, required := false,
    primary_key := false, unique_key := false, foreign_key := false }

/-- The synthesized primary-key column `id`. -/
def idCol : Column :=
  { field := "id", type := .STRING, nullable := false, required := false,
    primary_key := true, unique_key := true, foreign_key := false }

def c4CexSchema : Schema := ⟨"t", [idCol, strCol "a"], "id", []⟩

def c4CexWhere : List Where :=
  [⟨"a", .in_, .str "v"⟩, ⟨"a", .not_in, .str "v"⟩]

/-- Claim C4, counterexample: a two-predicate list whose operators are both
unsupported makes `whereToFilter` return the empty expression, not a
string of the form `AND(expr1,expr2)` as claimed for every list of
length two or more. -/
theorem c4_counterexample :
    whereToFilter c4CexWhere c4CexSchema = .ok ("", c4CexWhere) ∧
    "AND(".isPrefixOf "" = false :=
  ⟨rfl, rfl⟩

/-- Claim C4 (amended): provided every predicate column resolves in the
schema, `whereToFilter` returns `wtfSpec`: the empty expression for an
empty list, the raw rendered expression (no `AND` wrapper) for a
singleton, and for two or more predicates `AND(...)` of the supported
expressions of the supported predicates joined by exactly one comma with no trailing
separator — where unsupported operators are dropped, and the expression
collapses to empty when no predicate is supported.  Boolean-typed
predicates whose value is `false` are rendered against the empty
string. -/
theorem c4_amended (ws : List Where) (schema : Schema)
    (h : ∀ w ∈ ws, (schema.columns.find? (fun c => c.field == w.column)).isSome) :
    whereToFilter ws schema = .ok (wtfSpec schema ws, ws.map (rewriteBoolFalse schema)) :=
  whereToFilter_char ws schema h

def c4WitSchema : Schema := ⟨"t", [idCol, strCol "a", strCol "b"], "id", []⟩

def c4WitWhere : List Where :=
  [⟨"a", .equals, .str "1"⟩, ⟨"b", .gt, .str "2"⟩]

/-- Witness for C4 at a concrete two-predicate input: the result is the
`AND`-wrapped single-comma join. -/
theorem c4_amended_witness :
    whereToFilter c4WitWhere c4WitSchema =
      .ok (wtfSpec c4WitSchema c4WitWhere, c4WitWhere.map (rewriteBoolFalse c4WitSchema)) ∧
    wtfSpec c4WitSchema c4WitWhere = "AND(\x7ba\x7d=\"1\",\x7bb\x7d>\"2\")" :=
  ⟨c4_amended c4WitWhere c4WitSchema (by decide), by decide⟩

def c7Schema : Schema := ⟨"t", [idCol, boolCol "flag"], "id", []⟩

def c7Where : List Where := [⟨"flag", .equals, .bool false⟩]

/-- Claim C7, counterexample: `whereToFilter` does not leave the input
predicate list unchanged — a boolean-typed predicate with value `false`
has its value rewritten in place to the empty string. -/
theorem c7_counterexample :
    whereToFilter c7Where c7Schema =
      .ok ("\x7bflag\x7d=\"\"", [⟨"flag", .equals, .str ""⟩]) ∧
    ([⟨"flag", .equals, .str ""⟩] : List Where) ≠ c7Where := by
  refine ⟨rfl, ?_⟩
  simp [c7Where]

/-- Claim C7 (amended): `whereToFilter` is deterministic (equal arguments
give equal results) and does not touch the schema, but it does not leave
the predicate list unchanged: on success the list comes back with every
boolean-typed `false` value rewritten to the empty string, and the
rewrite is idempotent, so a second call on the mutated list returns the
same filter expression and the same list. -/
theorem c7_amended :
    (∀ (ws1 ws2 : List Where) (s1 s2 : Schema), ws1 = ws2 → s1 = s2 →
        whereToFilter ws1 s1 = whereToFilter ws2 s2) ∧
    (∀ (ws : List Where) (s : Schema) (f : String) (ws' : List Where),
        whereToFilter ws s = .ok (f, ws') →
        ws' = ws.map (rewriteBoolFalse s) ∧ whereToFilter ws' s = .ok (f, ws')) := by
  constructor
  · intro ws1 ws2 s1 s2 h1 h2
    rw [h1, h2]
  · intro ws s f ws' h
    have hcols := whereToFilter_ok_cols ws s f ws' h
    have hchar := whereToFilter_char ws s hcols
    rw [hchar] at h
    have hpair := Except.ok.inj h
    have hf : wtfSpec s ws = f := congrArg Prod.fst hpair
    have hws' : ws.map (rewriteBoolFalse s) = ws' := congrArg Prod.snd hpair
    refine ⟨hws'.symm, ?_⟩
    have hcols2 : ∀ w ∈ ws.map (rewriteBoolFalse s),
        (s.columns.find? (fun c => c.field == w.column)).isSome := by
      intro w hw
      rcases List.mem_map.mp hw with ⟨x, hx, hxw⟩
      rw [← hxw, rewriteBoolFalse_column]
      exact hcols x hx
    have h2 := whereToFilter_char (ws.map (rewriteBoolFalse s)) s hcols2
    rw [← hws', h2, wtfSpec_rewrite, hf]
    have hmm : (ws.map (rewriteBoolFalse s)).map (rewriteBoolFalse s) =
        ws.map (rewriteBoolFalse s) := by
      rw [List.map_map]
      apply List.map_congr_left
      intro x _
      exact rewriteBoolFalse_idem s x
    rw [hmm]

/-- Witness for C7 at a concrete input: determinism at the boolean-false
predicate, the characterization of the rewritten list, and the
idempotent second call. -/
theorem c7_amended_witness :
    whereToFilter c7Where c7Schema = whereToFilter c7Where c7Schema ∧
    ([⟨"flag", .equals, .str ""⟩] : List Where) = c7Where.map (rewriteBoolFalse c7Schema) ∧
    whereToFilter [⟨"flag", .equals, .str ""⟩] c7Schema =
      .ok ("\x7bflag\x7d=\"\"", [⟨"flag", .equals, .str ""⟩]) := by
  have h2 := c7_amended.2 c7Where c7Schema "\x7bflag\x7d=\"\""
    [⟨"flag", .equals, .str ""⟩] (by rfl)
  exact ⟨c7_amended.1 c7Where c7Where c7Schema c7Schema rfl rfl, h2.1, h2.2⟩

/-! ## Schema Resolver: `getSchema` (claim C2)

`getSchema` fetches the metadata catalog, synthesizes the `id` column,
walks the fields of the target table producing columns and forward
relations, and then runs a second pass over all tables to build reverse
relations.  In that second pass the source declares
`for (const table of response.tables)`, shadowing the variable that held
the target table, so the guard
`field.options.linkedTableId === table.id` compares each link field
against the id of the table currently being scanned. -/

/-- The column `getSchema` builds for a native field (the source stores
the whole native field in `extra`). -/
def mkColFromField (f : AirField) : Column :=
  { field := f.name, type := fieldMapper f.type, nullable := true, required := false,
    primary_key := false, unique_key := false,
    foreign_key := f.type == AirtableColumnType.MULTIPLE_RECORD_LINKS, extra := some f }

/-- The field loop of `getSchema`: columns in field order plus a forward
relation for every link field; a link to a table id absent from the
catalog makes the source dereference `undefined`. -/
def forwardPass (tables : List AirTable) (tname : String) :
    List AirField → Except JsErr (List Column × List Relation)
  | [] => .ok ([], [])
  | f :: rest =>
    if f.type == AirtableColumnType.MULTIPLE_RECORD_LINKS then
      match tables.find? (fun t => t.id == f.linkedTableId) with
      | none => .error (.typeError "Cannot read properties of undefined reading name")
      | some lt =>
        match forwardPass tables tname rest with
        | .error e => .error e
        | .ok (cs, rs) =>
          .ok (mkColFromField f :: cs, ⟨lt.name, "id", tname, f.name⟩ :: rs)
    else
      match forwardPass tables tname rest with
      | .error e => .error e
      | .ok (cs, rs) => .ok (mkColFromField f :: cs, rs)

/-- The reverse-relation pass of `getSchema`, transcribed with the
shadowing of the source: `t` is the scanned table and the guard compares
the link target against the scanned table itself. -/
def reverseRels (tname : String) (tables : List AirTable) : List Relation :=
  (tables.map (fun t => t.fields.filterMap (fun f =>
    if f.type == AirtableColumnType.MULTIPLE_RECORD_LINKS && f.linkedTableId == t.id then
      some ⟨tname, f.name, t.name, "id"⟩
    else none))).flatten

/-- The pure computation of `getSchema` over a fetched catalog (the
synthesized `id` column first, then the native columns; forward
relations followed by the reverse pass). -/
def gsCompute (tables : List AirTable) (tname : String) : Except JsErr Schema :=
  match tables.find? (fun t => t.name == tname) with
  | none => .error (.thrown "Table not found")
  | some table =>
    match forwardPass tables tname table.fields with
    | .error e => .error e
    | .ok (cs, fw) =>
      let columns := idCol :: cs
      .ok { table := tname, columns := columns,
            primary_key :=
              ((columns.find? (fun c => c.primary_key)).map (fun c => c.field)).getD "undefined",
            relations := fw ++ reverseRels tname tables }

/-- Catalog for claim C2: table `B` has a link field `aRef` whose linked
table is `A`. -/
def c2Tables : List AirTable :=
  [⟨"tblA", "A", []⟩,
   ⟨"tblB", "B", [⟨"aRef", .MULTIPLE_RECORD_LINKS, "tblA"⟩]⟩]

/-- Claim C2, evaluated at the failing input: the schema of `A` carries no
reverse relation at all for the link field `aRef` of `B` (the claim says
the relation with table `A` and org_table `B` is appended), while the
forward relation on the schema of `B` is produced as expected.  The
reverse pass compares each link field against the id of the scanned table itself
because the loop variable shadows the target table. -/
theorem c2_bug :
    (gsCompute c2Tables "A").toOption.map Schema.relations = some [] ∧
    (⟨"A", "aRef", "B", "id"⟩ : Relation) ∉ ([] : List Relation) ∧
    (gsCompute c2Tables "B").toOption.map Schema.relations =
      some [⟨"A", "id", "B", "aRef"⟩] :=
  ⟨rfl, List.not_mem_nil _, rfl⟩

/-! ## Execution model: requests, the remote world, and a trace monad

Every remote call of the datasource goes through `createRequest`, which
swallows HTTP errors (it logs and returns `undefined`).  We record each
issued request in a trace and model the remote service as a static
`World`: the metadata catalog, the per-filter record lists served by the
`listRecords` endpoint, a point-lookup record store, and the JavaScript
runtime facilities used by the code (date parsing, the clock, the
configured default limit) together with the page-token helper, which is
repository code not present under src/. -/

/-- A record as returned by the Airtable REST API. -/
structure AirRecord where
  id : String
  fields : List (String × JsVal)

/-- A flat response record `\x7bid, ...fields\x7d`. -/
abbrev RecordObj : Type := List (String × JsVal)

/-- Sort entry of a `listRecords` payload (`\x7bfield, direction\x7d`). -/
structure SortField where
  field : String
  direction : String
deriving DecidableEq, BEq

/-- The JSON payload of a `listRecords` request.  `none` models a key
that is absent on the wire: the source deletes keys holding `null` and
JSON serialization drops keys holding `undefined`. -/
structure ListPayload where
  pageSize : Option Nat := none
  maxRecords : Option Nat := none
  fields : Option (List String) := none
  filterByFormula : String := ""
  sort : Option (List SortField) := none
  offset : Option JsVal := none

/-- A request issued against the backend. -/
inductive Req where
  | metaTables
  | listRecords (table : String) (payload : ListPayload)
  | getRec (table : String) (id : String)
  | createRec (table : String) (fields : List (String × JsVal))
  | patchRec (table : String) (id : String) (fields : List (String × JsVal))
  | deleteRec (table : String) (id : String)

/-- Write requests, for stating that an operation issued no write. -/
def isWriteReq : Req → Bool
  | .createRec .. | .patchRec .. | .deleteRec .. => true
  | _ => false

/-- Modelled from the spec: the page-token helper of the Pagination
collaborator (`current`/`previous`/`next`/`first`/`last`).  The helper
lives in src/helpers/Pagination.ts, whose page-token methods are not
part of the sources provided under src/; no claim under verification
constrains their values, so they are opaque parameters of the world,
each a function of the limit/offset/total arguments the datasource
passes, as described in §4.3 of the specification. -/
structure PagFns where
  current : Option Nat → Nat → JsVal
  previous : Option Nat → Nat → JsVal
  next : Option Nat → Nat → Nat → JsVal
  first : Option Nat → JsVal
  last : Option Nat → Nat → JsVal

/-- The static model of the remote service and the JavaScript runtime:
`tables` is the metadata catalog, `filtered table formula` the ordered
list of records the `listRecords` endpoint serves for a filter formula,
`getRecord` the point-lookup store, `createdId` the id the create
endpoint assigns, `dateToISO` the runtime `new Date(v).toISOString()`,
`nowISO` the runtime `new Date().toISOString()`, and `defaultLimit` the
configured `database.defaults.limit`. -/
structure World where
  tables : List AirTable
  filtered : String → String → List AirRecord
  getRecord : String → String → Option AirRecord
  createdId : String := "recNEW"
  dateToISO : JsVal → String := fun _ => ""
  nowISO : String := "1970-01-01T00:00:00.000Z"
  defaultLimit : Option Nat := none
  pag : PagFns := ⟨fun _ _ => .null, fun _ _ => .null, fun _ _ _ => .null,
    fun _ => .null, fun _ _ => .null⟩

/-- Cursor tokens: the opaque continuation markers the list endpoint
returns encode the next start position. -/
def cursorFor (k : Nat) : JsVal := .str ("itr" ++ toString k)

/-- Digit-string parser used to decode cursor tokens. -/
def parseNatGo : List Char → Nat → Option Nat
  | [], acc => some acc
  | c :: cs, acc => if c.isDigit then parseNatGo cs (acc * 10 + (c.toNat - 48)) else none

/-- Decoding of an offset value sent by the client; anything that is not
a well-formed cursor string is an invalid token and makes the endpoint
reject the request. -/
def decodeCursor : JsVal → Option Nat
  | .str s =>
    match s.toList with
    | 'i' :: 't' :: 'r' :: c :: rest => parseNatGo (c :: rest) 0
    | _ => none
  | _ => none

/-- A response of the `listRecords` endpoint. -/
structure ListResp where
  records : List AirRecord
  offset : Option JsVal

/-- The `listRecords` endpoint: serves at most `pageSize` records (capped
further by `maxRecords`) of the result list of the filter starting at the
cursor position, and returns a continuation cursor exactly when records
remain.  `none` is an HTTP error (for example an invalid offset token),
which `createRequest` swallows into `undefined`. -/
def serveList (w : World) (table : String) (p : ListPayload) : Option ListResp :=
  let matching := w.filtered table p.filterByFormula
  let start? : Option Nat :=
    match p.offset with
    | none => some 0
    | some v => decodeCursor v
  match start? with
  | none => none
  | some start =>
    let psz := p.pageSize.getD 100
    let cap := match p.maxRecords with
      | some m => min m psz
      | none => psz
    let recs := (matching.drop start).take cap
    let respOffset := if start + recs.length < matching.length then
        some (cursorFor (start + recs.length)) else none
    some { records := recs, offset := respOffset }

/-- The result/trace monad: a computation appends the requests it issues
and either returns a value or an error; the trace persists through
errors so we can state what was sent before a failure. -/
def M (α : Type) : Type := List Req → Except JsErr α × List Req

instance : Monad M where
  pure a := fun t => (.ok a, t)
  bind x f := fun t =>
    match x t with
    | (.ok a, t') => f a t'
    | (.error e, t') => (.error e, t')

/-- Raise an error. -/
def M.err {α : Type} (e : JsErr) : M α := fun t => (.error e, t)

/-- Record an issued request. -/
def M.tell (r : Req) : M Unit := fun t => (.ok (), t ++ [r])

/-- The catch-and-rethrow wrapper `catch (e) \x7b ... throw new Error(e) \x7d`
every public operation carries. -/
def M.wrapErrors {α : Type} (x : M α) : M α := fun t =>
  match x t with
  | (.ok a, t') => (.ok a, t')
  | (.error e, t') => (.error (wrapJs e), t')

theorem M.bind_def {α β : Type} (x : M α) (f : α → M β) :
    (x >>= f) = fun t =>
      match x t with
      | (.ok a, t') => f a t'
      | (.error e, t') => (.error e, t') := rfl

theorem M.pure_def {α : Type} (a : α) : (pure a : M α) = fun t => (.ok a, t) := rfl

/-- `createRequest` for the list endpoint: record the request, return the
response, or `undefined` when the backend rejected it. -/
def doListRecords (w : World) (table : String) (p : ListPayload) : M (Option ListResp) := do
  M.tell (.listRecords table p)
  pure (serveList w table p)

/-- `createRequest` for a point GET: `undefined` when the record is
absent (HTTP 404 swallowed by `createRequest`). -/
def doGetRecord (w : World) (table : String) (id : String) : M (Option AirRecord) := do
  M.tell (.getRec table id)
  pure (w.getRecord table id)

/-- `getSchema` as the datasource runs it: fetch the catalog, compute,
and wrap any failure. -/
def getSchemaM (w : World) (tname : String) : M Schema := do
  M.tell .metaTables
  match gsCompute w.tables tname with
  | .error e => M.err (wrapJs e)
  | .ok s => pure s

/-! ## Total count: `findTotalRecords` (claim C1) -/

/-- Options of `findTotalRecords` (`DataSourceFindTotalRecords`). -/
structure FindTotalOptions where
  schema : Schema
  where_ : List Where

/-- The paging loop of `findTotalRecords`.  Each round requests a
100-record page with an empty field list at the current cursor.  An
empty page finishes with the running total; a short page adds its
length to the total and finishes; a full page stores the continuation
cursor and assigns the page length to the running total — the source
writes `total = +result.records.length` (an assignment through unary
plus) where the short-page branch writes `total +=`.  (The source also
contains a dead `offset += 100` that the very next line overwrites with
`offset = result.offset`.)  The fuel argument bounds the rounds the
loop executes; exhausting it models divergence.  Note that a full final
page returns no continuation cursor, so the next round starts over from
the beginning of the result list, exactly as an absent `offset` key
does in the source. -/
def ftrGo (w : World) (table : String) (fbf : String) :
    Nat → Option JsVal → Nat → M Nat
  | 0, _, _ => M.err .nonterm
  | fuel + 1, cursor, total => do
    let res ← doListRecords w table
      { pageSize := some 100, fields := some [], filterByFormula := fbf, offset := cursor }
    match res with
    | none => M.err (.typeError "Cannot read properties of undefined reading records")
    | some r =>
      if r.records.length == 0 then pure total
      else if r.records.length < 100 then pure (total + r.records.length)
      else ftrGo w table fbf fuel r.offset r.records.length

/-- `findTotalRecords`: translate the where clause, then page through the
matching records 100 at a time accumulating the count; failures are
wrapped by the catch block. -/
def findTotalRecords (w : World) (fuel : Nat) (opts : FindTotalOptions) : M Nat :=
  M.wrapErrors do
    match whereToFilter opts.where_ opts.schema with
    | .error e => M.err e
    | .ok (fbf, _) => ftrGo w opts.schema.table fbf fuel none 0

/-- A result list of `n` records with distinct ids and no fields. -/
def mkRecs (n : Nat) : List AirRecord :=
  (List.range n).map (fun i => ⟨"rec" ++ toString i, []⟩)

def c1Schema : Schema := ⟨"Big", [idCol], "id", []⟩

/-- World for claim C1: the table `Big` holds 250 records matching the
empty filter. -/
def c1World : World :=
  { tables := [], getRecord := fun _ _ => none,
    filtered := fun t f => if t == "Big" && f == "" then mkRecs 250 else [] }

/-- Claim C1, evaluated at the failing input: over a result set of 250
matching records (pages of 100, 100 and 50) `findTotalRecords` returns
150, not 250 — each full page overwrites the running total instead of
adding to it, so only the last full page and the final short page are
counted. -/
theorem c1_bug :
    (findTotalRecords c1World 5 ⟨c1Schema, []⟩ []).1 = .ok 150 ∧
    (c1World.filtered "Big" "").length = 250 ∧
    (150 : Nat) ≠ 250 :=
  ⟨rfl, rfl, by decide⟩

/-! ## Record Mapper and the find operations -/

/-- Options of `findOne` (`DataSourceFindOneOptions`). -/
structure FindOneOptions where
  schema : Schema
  where_ : List Where
  fields : Option (List String) := none

/-- An abstract sort entry (`column` plus `ASC`/`DESC` operator). -/
structure SortEntry where
  column : String
  operator : String

/-- Options of `findMany` (`DataSourceFindManyOptions`).  `offset = 0`
plays the role of an absent or zero offset (both are falsy). -/
structure FindManyOptions where
  schema : Schema
  where_ : List Where
  fields : Option (List String) := none
  limit : Option Nat := none
  offset : Nat := 0
  sort : Option (List SortEntry) := none

/-- The page block of a `FindManyResponseObject`. -/
structure PagPage where
  current : JsVal
  prev : JsVal
  next : JsVal
  first : JsVal
  last : JsVal

/-- The pagination block of a `FindManyResponseObject`. -/
structure PagResp where
  total : Nat
  page : PagPage

/-- A `FindManyResponseObject`.  An element of `data` can be `none`: the
primary-key short-circuit stores the raw result of `findOne`, which can
be `undefined`. -/
structure FindManyResp where
  limit : Option Nat
  offset : Nat
  total : Nat
  pagination : PagResp
  data : List (Option RecordObj)

/-- JavaScript property read `data[k]` on a flat record (absent keys are
undefined, which shares its falsiness with `null`). -/
def objGet (data : RecordObj) (k : String) : JsVal :=
  ((data.find? (fun kv => kv.1 == k)).map (fun kv => kv.2)).getD .null

/-- `formatField`: null passes through; `DATE` values go through
JavaScript `new Date(value).toISOString()` (the runtime facility
`w.dateToISO`); everything else is returned unchanged. -/
def formatField (w : World) (type : DataSourceColumnType) (value : JsVal) : JsVal :=
  if isNullLit value then .null
  else
    match type with
    | .DATE => .str (w.dateToISO value)
    | _ => value

/-- `formatOutput`: client-side field allowlisting (the backend cannot
filter fields of a single-record fetch), keeping `id`, followed by the
per-column `formatField` pass; keys with no matching column are left
untouched. -/
def formatOutput (w : World) (opts : FindOneOptions) (data : RecordObj) : RecordObj :=
  let filtered : List (String × JsVal) :=
    match opts.fields with
    | some fs =>
      if fs.length > 0 then data.filter (fun kv => kv.1 == "id" || fs.contains kv.1) else data
    | none => data
  filtered.map (fun kv =>
    match opts.schema.columns.find? (fun c => c.field == kv.1) with
    | none => kv
    | some col => (kv.1, formatField w col.type kv.2))

/-- The field list both find operations compute: the requested fields
when non-empty, else every schema column except `id`. -/
def allFieldsButId (schema : Schema) : List String :=
  (schema.columns.map (fun c => c.field)).filter (fun f => f != "id")

def resolveFields (fields : Option (List String)) (schema : Schema) : List String :=
  match fields with
  | some fs => if fs.length > 0 then fs else allFieldsButId schema
  | none => allFieldsButId schema

/-- The limit defaulting of `findMany`: a falsy limit is replaced by the
configured default, falling back to 20. -/
def defaultedLimit (w : World) (l : Option Nat) : Nat :=
  match l with
  | some n => if n != 0 then n else w.defaultLimit.getD 20
  | none => w.defaultLimit.getD 20

/-- The sort mapping of `findMany`: abstract sort entries become
`\x7bfield, direction\x7d` with a lower-cased direction. -/
def mapSort : Option (List SortEntry) → List SortField
  | some l => l.map (fun s => { field := s.column, direction := s.operator.toLower })
  | none => []

/-- The `offset > 100` while loop of `findMany`: fetch 100-record pages
(with the requested fields, the filter and the sort), advancing the
Airtable cursor, until the cumulative count reaches the logical offset;
returns the last continuation cursor (which the caller then drops, see
`findMany`).  The first argument is a structural bound on the loop
rounds: each round advances the count by 100, so a bound equal to the
target offset can never be exhausted and the error arm is unreachable;
the definition coincides with the while loop of the source. -/
def prefetchGo (w : World) (table : String) (fbf : String) (fields : List String)
    (sort : List SortField) (target : Nat) :
    Nat → Nat → Option JsVal → M (Option JsVal)
  | 0, temp, cursor => if temp < target then M.err .nonterm else pure cursor
  | gas + 1, temp, cursor =>
    if temp < target then do
      let res ← doListRecords w table
        { pageSize := some 100, fields := some fields, filterByFormula := fbf,
          sort := some sort, offset := cursor }
      match res with
      | none => M.err (.typeError "Cannot read properties of undefined reading offset")
      | some r => prefetchGo w table fbf fields sort target gas (temp + 100) r.offset
    else pure cursor

mutual

/-- `findOne`: compute the field list; if the where clause carries a
truthy primary-key value, fetch the record directly (a missing record
makes `createRequest` return `undefined`, whose `id` access then
raises), check `result.id`, and normalize through `formatOutput`;
otherwise delegate to `findMany` with limit 1 and return its first data
element, which can be `undefined`. -/
def findOne (w : World) : Nat → FindOneOptions → M (Option RecordObj)
  | 0, _ => M.err .nonterm
  | fuel + 1, opts => M.wrapErrors do
    let fields := resolveFields opts.fields opts.schema
    let idv : Option JsVal :=
      (opts.where_.find? (fun p => p.column == opts.schema.primary_key)).map (fun p => p.value)
    if (match idv with | some v => jsTruthy v | none => false) then
      let v := idv.getD JsVal.null
      let res ← doGetRecord w opts.schema.table (jsValToString v)
      match res with
      | none => M.err (.typeError "Cannot read properties of undefined reading id")
      | some rec =>
        if rec.id == "" then M.err (.thrown "Record not found")
        else pure (some (formatOutput w opts (("id", JsVal.str rec.id) :: rec.fields)))
    else do
      let results ← findMany w fuel
        { schema := opts.schema, where_ := opts.where_, fields := some fields,
          limit := some 1, offset := 0, sort := none }
      pure (results.data.getD 0 none)

/-- `findMany`: a single predicate on the primary-key column (any
operator) short-circuits to `findOne` wrapped as a one-element result
with total 1; otherwise compute the exhaustive total, translate the
where clause, adapt the logical offset to cursors (for offsets above
100 the advanced cursor is fetched but never copied back, so the real
fetch carries the numeric offset), issue the real fetch and map the
records to flat objects without any per-type formatting. -/
def findMany (w : World) : Nat → FindManyOptions → M FindManyResp
  | 0, _ => M.err .nonterm
  | fuel + 1, opts =>
    if (match opts.where_ with
        | [wp] => wp.column == opts.schema.primary_key
        | _ => false) then do
      let r ← findOne w fuel { schema := opts.schema, where_ := opts.where_, fields := opts.fields }
      pure { limit := opts.limit, offset := opts.offset, total := 1,
             pagination := { total := 1, page :=
               { current := w.pag.current opts.limit opts.offset,
                 prev := w.pag.previous opts.limit opts.offset,
                 next := w.pag.next opts.limit opts.offset 1,
                 first := w.pag.first opts.limit,
                 last := w.pag.last opts.limit 1 } },
             data := [r] }
    else do
      let total ← findTotalRecords w fuel { schema := opts.schema, where_ := opts.where_ }
      let ws1 := match whereToFilter opts.where_ opts.schema with
        | .ok (_, ws') => ws'
        | .error _ => opts.where_
      M.wrapErrors do
        let sort : List SortField := mapSort opts.sort
        let limit := defaultedLimit w opts.limit
        match whereToFilter ws1 opts.schema with
        | .error e => M.err e
        | .ok (fbf, _) => do
          let fields := resolveFields opts.fields opts.schema
          let finalOffset : Option JsVal ←
            if opts.offset != 0 then
              if opts.offset > 100 then do
                let _air ← prefetchGo w opts.schema.table fbf fields sort opts.offset opts.offset 0 none
                pure (some (JsVal.num (opts.offset : Int)))
              else do
                let res ← doListRecords w opts.schema.table
                  { pageSize := some opts.offset, fields := some fields,
                    filterByFormula := fbf, sort := some sort }
                match res with
                | none => M.err (.typeError "Cannot read properties of undefined reading offset")
                | some r => pure r.offset
            else pure none
          let res ← doListRecords w opts.schema.table
            { fields := some fields, filterByFormula := fbf, sort := some sort,
              maxRecords := some (if limit > 100 then 100 else limit),
              pageSize := some (if limit > 100 then 100 else limit),
              offset := finalOffset }
          match res with
          | none => M.err (.typeError "Cannot read properties of undefined reading records")
          | some r =>
            let results : List RecordObj :=
              r.records.map (fun rec => ("id", JsVal.str rec.id) :: rec.fields)
            pure { limit := some limit, offset := opts.offset, total := total,
                   pagination := { total := results.length, page :=
                     { current := w.pag.current (some limit) opts.offset,
                       prev := w.pag.previous (some limit) opts.offset,
                       next := w.pag.next (some limit) opts.offset total,
                       first := w.pag.first (some limit),
                       last := w.pag.last (some limit) total } },
                   data := results.map some }

end

/-! ## Claims C3, C10 and C6 -/

/-- Claim C3: for every schema and every where list that is a single
equals predicate on the primary-key column, when `findOne` with the
same predicate and fields returns a result, `findMany` returns the
one-element wrapper around it with `total = 1` (echoing the request
limit and offset), issuing exactly the same requests. -/
theorem c3_refines (w : World) (fuel : Nat) (opts : FindManyOptions) (pk : String) (v : JsVal)
    (t t' : List Req) (r : Option RecordObj)
    (h1 : opts.where_ = [⟨pk, .equals, v⟩])
    (h2 : opts.schema.primary_key = pk)
    (h3 : findOne w fuel ⟨opts.schema, opts.where_, opts.fields⟩ t = (.ok r, t')) :
    ∃ resp, findMany w (fuel + 1) opts t = (.ok resp, t') ∧
      resp.total = 1 ∧ resp.data = [r] ∧
      resp.limit = opts.limit ∧ resp.offset = opts.offset := by
  have hcond : (match opts.where_ with
      | [wp] => wp.column == opts.schema.primary_key
      | _ => false) = true := by
    rw [h1, h2]; simp
  rw [findMany]
  rw [hcond]
  simp only [if_true, M.bind_def]
  rw [h3]
  exact ⟨_, rfl, rfl, rfl, rfl, rfl⟩

/-- The world shared by the concrete find scenarios: table `Orders`
holds the record `rec123`. -/
def ordersWorld : World :=
  { tables := [], filtered := fun _ _ => [],
    getRecord := fun t i =>
      if t == "Orders" && i == "rec123" then
        some ⟨"rec123", [("Name", .str "bob")]⟩
      else none }

def ordersSchema : Schema := ⟨"Orders", [idCol, strCol "Name"], "id", []⟩

def c3Opts : FindManyOptions :=
  { schema := ordersSchema, where_ := [⟨"id", .equals, .str "rec123"⟩], limit := some 20 }

/-- Witness for C3 at the record `rec123` of `Orders`. -/
theorem c3_refines_witness :
    ∃ resp, findMany ordersWorld 2 c3Opts [] =
        (.ok resp, [Req.getRec "Orders" "rec123"]) ∧
      resp.total = 1 ∧
      resp.data = [some [("id", JsVal.str "rec123"), ("Name", JsVal.str "bob")]] ∧
      resp.limit = some 20 ∧ resp.offset = 0 :=
  c3_refines ordersWorld 1 c3Opts "id" (.str "rec123") [] [Req.getRec "Orders" "rec123"]
    (some [("id", JsVal.str "rec123"), ("Name", JsVal.str "bob")]) rfl rfl rfl

/-- Claim C10: the primary-key short-circuit of `findMany` ignores the
predicate operator — a single predicate on the primary-key column with
any operator and a truthy value bypasses filter translation entirely
(the only request issued is the direct point fetch of the record whose
id is the predicate value) and reports `total = 1`. -/
theorem c10_shortcircuit (w : World) (fuel : Nat) (opts : FindManyOptions) (op : WhereOperator)
    (v : JsVal) (r : AirRecord) (t : List Req)
    (h1 : opts.where_ = [⟨opts.schema.primary_key, op, v⟩])
    (h2 : jsTruthy v = true)
    (h3 : w.getRecord opts.schema.table (jsValToString v) = some r)
    (h4 : (r.id == "") = false) :
    ∃ resp, findMany w (fuel + 2) opts t =
        (.ok resp, t ++ [.getRec opts.schema.table (jsValToString v)]) ∧
      resp.total = 1 ∧
      resp.data = [some (formatOutput w ⟨opts.schema, opts.where_, opts.fields⟩
        (("id", JsVal.str r.id) :: r.fields))] := by
  have hcond : (match opts.where_ with
      | [wp] => wp.column == opts.schema.primary_key
      | _ => false) = true := by rw [h1]; simp
  have hfind : findOne w (fuel + 1) ⟨opts.schema, opts.where_, opts.fields⟩ t =
      (.ok (some (formatOutput w ⟨opts.schema, opts.where_, opts.fields⟩
        (("id", JsVal.str r.id) :: r.fields))),
       t ++ [.getRec opts.schema.table (jsValToString v)]) := by
    rw [findOne]
    simp only [M.wrapErrors, M.bind_def, M.pure_def, M.tell, M.err, doGetRecord,
      h1, h2, h3, h4, List.find?, beq_self_eq_true, Option.map_some', Option.getD_some,
      if_true, Bool.false_eq_true, if_false]
  rw [findMany, hcond]
  simp only [if_true, M.bind_def]
  rw [hfind]
  exact ⟨_, rfl, rfl, rfl⟩

def c10Opts : FindManyOptions :=
  { schema := ordersSchema, where_ := [⟨"id", .gt, .str "rec123"⟩], limit := some 20 }

/-- Witness for C10 with the non-equality operator `gt`: the record is
still point-fetched and `total = 1` reported. -/
theorem c10_shortcircuit_witness :
    ∃ resp, findMany ordersWorld 3 c10Opts [] =
        (.ok resp, [Req.getRec "Orders" "rec123"]) ∧
      resp.total = 1 ∧
      resp.data = [some [("id", JsVal.str "rec123"), ("Name", JsVal.str "bob")]] :=
  c10_shortcircuit ordersWorld 1 c10Opts .gt (.str "rec123")
    ⟨"rec123", [("Name", .str "bob")]⟩ [] rfl rfl rfl rfl

/-- World for claim C6: 250 records match the empty filter of table
`Orders`. -/
def c6World : World :=
  { tables := [], getRecord := fun _ _ => none,
    filtered := fun t f => if t == "Orders" && f == "" then mkRecs 250 else [] }

def c6Opts : FindManyOptions :=
  { schema := ordersSchema, where_ := [], fields := some ["Name"],
    limit := some 20, offset := 150 }

/-- The payload of a `findTotalRecords` round (no fields, no sort). -/
def c6FtrPayload (off : Option JsVal) : ListPayload :=
  { pageSize := some 100, fields := some [], filterByFormula := "", offset := off }

/-- The payload of an `offset > 100` pre-fetch round: it carries the
requested fields and the sort, not a blank field list. -/
def c6PrePayload (off : Option JsVal) : ListPayload :=
  { pageSize := some 100, fields := some ["Name"], filterByFormula := "",
    sort := some [], offset := off }

/-- The payload of the real fetch: its `offset` is the numeric logical
offset 150, not the continuation cursor obtained by the pre-fetch
loop. -/
def c6RealPayload : ListPayload :=
  { fields := some ["Name"], filterByFormula := "", sort := some [],
    maxRecords := some 20, pageSize := some 20, offset := some (.num 150) }

/-! ## Claim C5: type coercion on read -/

/-- A `DATE` column. -/
def dateCol (f : String) : Column :=
  { field := f, type := .DATE, nullable := true, required := false,
    primary_key := false, unique_key := false, foreign_key := false }

def c5Schema : Schema := ⟨"Events", [idCol, dateCol "when"], "id", []⟩

/-- World for claim C5: one record in `Events` with a native date value,
and a date parser that turns it into an ISO 8601 string. -/
def c5World : World :=
  { tables := [],
    filtered := fun t f =>
      if t == "Events" && f == "" then [⟨"r1", [("when", .str "2024-01-02")]⟩] else [],
    getRecord := fun t i =>
      if t == "Events" && i == "r1" then some ⟨"r1", [("when", .str "2024-01-02")]⟩ else none,
    dateToISO := fun v =>
      match v with
      | .str s => s ++ "T00:00:00.000Z"
      | _ => "1970-01-01T00:00:00.000Z" }

def c5Opts : FindManyOptions := { schema := c5Schema, where_ := [], limit := some 20 }

/-- Claim C5, counterexample: `findMany` returns the native date value
`2024-01-02` of the `DATE` column unchanged — its records never pass
through `formatField`, which would have produced the ISO string — so
the coercion claimed for both read paths does not hold for
`findMany`. -/
theorem c5_counterexample :
    ((findMany c5World 3 c5Opts []).1).toOption.map FindManyResp.data =
      some [some [("id", JsVal.str "r1"), ("when", JsVal.str "2024-01-02")]] ∧
    formatField c5World .DATE (.str "2024-01-02") = .str "2024-01-02T00:00:00.000Z" ∧
    JsVal.str "2024-01-02" ≠ JsVal.str "2024-01-02T00:00:00.000Z" := by
  refine ⟨rfl, rfl, ?_⟩
  intro h
  exact absurd (JsVal.str.inj h) (by decide)

theorem find?_map_keyfix (g : String × JsVal → String × JsVal)
    (hg : ∀ kv, (g kv).1 = kv.1) (k : String) (val : JsVal)
    (l : List (String × JsVal))
    (h : l.find? (fun kv => kv.1 == k) = some (k, val)) :
    (l.map g).find? (fun kv => kv.1 == k) = some (g (k, val)) := by
  induction l with
  | nil => simp [List.find?] at h
  | cons kv rest ih =>
    rw [List.map_cons]
    by_cases hkv : (kv.1 == k) = true
    · simp only [List.find?_cons, hkv, if_true] at h
      have hkvv : kv = (k, val) := Option.some.inj h
      subst hkvv
      have hpos : ((g (k, val)).1 == k) = true := by rw [hg (k, val)]; exact hkv
      simp only [List.find?_cons, hpos, if_true]
    · have hkv' : (kv.1 == k) = false := by
        cases hx : (kv.1 == k) with
        | true => exact absurd hx hkv
        | false => rfl
      simp only [List.find?_cons, hkv', Bool.false_eq_true, if_false] at h
      have hneg : ((g kv).1 == k) = false := by rw [hg kv]; exact hkv'
      simp only [List.find?_cons, hneg, Bool.false_eq_true, if_false]
      exact ih h

theorem formatOutput_fields_none (w : World) (opts : FindOneOptions) (data : RecordObj)
    (hf : opts.fields = none) :
    formatOutput w opts data = data.map (fun kv =>
      match opts.schema.columns.find? (fun c => c.field == kv.1) with
      | none => kv
      | some col => (kv.1, formatField w col.type kv.2)) := by
  rw [formatOutput, hf]

/-- Claim C5 (amended): the per-type read coercion — null passes through,
`DATE` values become ISO strings via date parsing, everything else is
unchanged — is applied to every field of records returned by the direct
point-fetch path of `findOne`; records returned by `findMany` are NOT
coerced: its data is the raw backend records mapped to flat objects. -/
theorem c5_amended :
    (∀ (w : World) (fuel : Nat) (opts : FindOneOptions) (v : JsVal) (r : AirRecord)
        (t : List Req) (k : String) (val : JsVal) (col : Column),
      opts.where_ = [⟨opts.schema.primary_key, .equals, v⟩] →
      jsTruthy v = true →
      w.getRecord opts.schema.table (jsValToString v) = some r →
      (r.id == "") = false →
      opts.fields = none →
      (("id", JsVal.str r.id) :: r.fields).find? (fun kv => kv.1 == k) = some (k, val) →
      opts.schema.columns.find? (fun c => c.field == k) = some col →
      ∃ rec, findOne w (fuel + 1) opts t =
          (.ok (some rec), t ++ [.getRec opts.schema.table (jsValToString v)]) ∧
        rec.find? (fun kv => kv.1 == k) = some (k, formatField w col.type val)) ∧
    (∀ (w : World) (ty : DataSourceColumnType) (val : JsVal),
      (isNullLit val = true → formatField w ty val = .null) ∧
      (ty = .DATE → isNullLit val = false → formatField w ty val = .str (w.dateToISO val)) ∧
      (ty ≠ .DATE → isNullLit val = false → formatField w ty val = val)) ∧
    (∀ (w : World) (fuel : Nat) (opts : FindManyOptions) (t : List Req)
        (total : Nat) (t1 : List Req) (f0 fbf : String) (ws1 ws2 : List Where) (r : ListResp),
      (match opts.where_ with
       | [wp] => wp.column == opts.schema.primary_key
       | _ => false) = false →
      opts.offset = 0 →
      findTotalRecords w fuel ⟨opts.schema, opts.where_⟩ t = (.ok total, t1) →
      whereToFilter opts.where_ opts.schema = .ok (f0, ws1) →
      whereToFilter ws1 opts.schema = .ok (fbf, ws2) →
      serveList w opts.schema.table
        { fields := some (resolveFields opts.fields opts.schema), filterByFormula := fbf,
          sort := some (mapSort opts.sort),
          maxRecords := some (if defaultedLimit w opts.limit > 100 then 100
            else defaultedLimit w opts.limit),
          pageSize := some (if defaultedLimit w opts.limit > 100 then 100
            else defaultedLimit w opts.limit),
          offset := none } = some r →
      ∃ resp t2, findMany w (fuel + 1) opts t = (.ok resp, t2) ∧
        resp.data = r.records.map (fun rec => some (("id", JsVal.str rec.id) :: rec.fields))) := by
  refine ⟨?_, ?_, ?_⟩
  · intro w fuel opts v r t k val col h1 h2 h3 h4 h5 h6 h7
    refine ⟨formatOutput w opts (("id", JsVal.str r.id) :: r.fields), ?_, ?_⟩
    · rw [findOne]
      simp only [M.wrapErrors, M.bind_def, M.pure_def, M.tell, M.err, doGetRecord,
        h1, h2, h3, h4, List.find?, beq_self_eq_true, Option.map_some', Option.getD_some,
        if_true, Bool.false_eq_true, if_false]
    · rw [formatOutput_fields_none w opts _ h5]
      have hres := find?_map_keyfix
        (fun kv => match opts.schema.columns.find? (fun c => c.field == kv.1) with
          | none => kv
          | some col => (kv.1, formatField w col.type kv.2))
        (fun kv => by
          cases hcc : opts.schema.columns.find? (fun c => c.field == kv.1) <;>
            simp [hcc])
        k val _ h6
      rw [hres]
      simp only [h7]
  · intro w ty val
    refine ⟨?_, ?_, ?_⟩
    · intro hnull
      cases ty <;> simp [formatField, hnull]
    · intro hty hnn
      subst hty
      simp [formatField, hnn]
    · intro hty hnn
      cases ty with
      | DATE => exact absurd rfl hty
      | STRING => simp [formatField, hnn]
      | NUMBER => simp [formatField, hnn]
      | BOOLEAN => simp [formatField, hnn]
      | ENUM => simp [formatField, hnn]
      | JSON => simp [formatField, hnn]
      | UNKNOWN => simp [formatField, hnn]
  · intro w fuel opts t total t1 f0 fbf ws1 ws2 r hcond hoff hftr hw1 hw2 hserve
    rw [findMany, hcond]
    simp only [if_false, Bool.false_eq_true, M.bind_def]
    rw [hftr, hw1]
    simp only [M.wrapErrors, M.bind_def, M.pure_def, M.err, doListRecords, M.tell, hw2, hoff]
    simp only [bne_self_eq_false, Bool.false_eq_true, if_false, hserve]
    exact ⟨_, _, rfl, by simp [List.map_map]⟩

/-- Witness for C5 at the `Events` record: the point-fetch path returns
the ISO-transformed date, `formatField` transforms the concrete value,
and `findMany` returns the native value raw. -/
theorem c5_amended_witness :
    (∃ rec, findOne c5World 2 ⟨c5Schema, [⟨"id", .equals, .str "r1"⟩], none⟩ [] =
        (.ok (some rec), [Req.getRec "Events" "r1"]) ∧
      rec.find? (fun kv => kv.1 == "when") =
        some ("when", JsVal.str "2024-01-02T00:00:00.000Z")) ∧
    formatField c5World .DATE (.str "2024-01-02") = .str "2024-01-02T00:00:00.000Z" ∧
    (∃ resp t2, findMany c5World 3 c5Opts [] = (.ok resp, t2) ∧
      resp.data = [some [("id", JsVal.str "r1"), ("when", JsVal.str "2024-01-02")]]) := by
  refine ⟨?_, ?_, ?_⟩
  · exact c5_amended.1 c5World 1 ⟨c5Schema, [⟨"id", .equals, .str "r1"⟩], none⟩
      (.str "r1") ⟨"r1", [("when", .str "2024-01-02")]⟩ [] "when" (.str "2024-01-02")
      (dateCol "when") rfl rfl rfl rfl rfl rfl rfl
  · exact (c5_amended.2.1 c5World .DATE (.str "2024-01-02")).2.1 rfl rfl
  · exact c5_amended.2.2 c5World 2 c5Opts [] 1
      [Req.listRecords "Events"
        { pageSize := some 100, fields := some [], filterByFormula := "", offset := none }]
      "" "" [] []
      ⟨[⟨"r1", [("when", .str "2024-01-02")]⟩], none⟩
      rfl rfl rfl rfl rfl rfl

/-- Claim C6, evaluated at offset 150 over 250 records: the pre-fetch
loop runs twice and its second response carries the continuation cursor
`itr200`, but the real fetch is issued with the numeric offset 150
instead of that cursor (the advanced cursor is fetched into a local
that is never copied back), so the backend rejects the token and
`findMany` fails; moreover the pre-fetch pages carry the requested
fields rather than being blank. -/
theorem c6_bug :
    findMany c6World 9 c6Opts [] =
      (.error (.wrapped (.typeError "Cannot read properties of undefined reading records")),
       [.listRecords "Orders" (c6FtrPayload none),
        .listRecords "Orders" (c6FtrPayload (some (.str "itr100"))),
        .listRecords "Orders" (c6FtrPayload (some (.str "itr200"))),
        .listRecords "Orders" (c6PrePayload none),
        .listRecords "Orders" (c6PrePayload (some (.str "itr100"))),
        .listRecords "Orders" c6RealPayload]) ∧
    (serveList c6World "Orders" (c6PrePayload (some (.str "itr100")))).map ListResp.offset =
      some (some (.str "itr200")) ∧
    c6RealPayload.offset = some (.num 150) ∧
    (some (JsVal.num 150) : Option JsVal) ≠ some (JsVal.str "itr200") ∧
    (c6PrePayload none).fields = some ["Name"] ∧
    (some ["Name"] : Option (List String)) ≠ some [] := by
  refine ⟨rfl, rfl, rfl, ?_, rfl, ?_⟩
  · intro h
    simp at h
  · intro h
    simp at h

/-! ## Relation Resolver and the write operations (claims C8 and C9) -/

/-- Options of `createOne` (`DataSourceCreateOneOptions`). -/
structure CreateOneOptions where
  schema : Schema
  data : RecordObj

/-- Options of `updateOne` (`DataSourceUpdateOneOptions`). -/
structure UpdateOneOptions where
  id : String
  schema : Schema
  data : RecordObj

/-- Options of `deleteOne` (`DataSourceDeleteOneOptions`). -/
structure DeleteOneOptions where
  id : String
  schema : Schema
  softDelete : Option String := none

/-- A `DeleteResponseObject`. -/
structure DeleteResp where
  deleted : Nat
deriving DecidableEq

/-- JavaScript property write `data[k] = v` on a flat record. -/
def objSet (data : RecordObj) (k : String) (v : JsVal) : RecordObj :=
  if data.any (fun kv => kv.1 == k) then
    data.map (fun kv => if kv.1 == k then (k, v) else kv)
  else data ++ [(k, v)]

/-- JavaScript `delete data[k]`. -/
def jsDeleteKey (data : RecordObj) (k : String) : RecordObj :=
  data.filter (fun kv => !(kv.1 == k))

/-- The per-id linked-record check of the Relation Resolver: resolve the
schema of the linked table, point-fetch the id, and throw
`Linked record not found` when `findOne` comes back empty.  (When the
record is missing, `findOne` itself raises before that check: the
swallowed 404 leaves it dereferencing `undefined`.) -/
def checkIds (w : World) (fuel : Nat) (ltable : String) : List JsVal → M Unit
  | [] => pure ()
  | id :: rest => do
    let linkedSchema ← getSchemaM w ltable
    let linkedRecord ← findOne w fuel
      { schema := linkedSchema,
        where_ := [{ column := "id", operator := .equals, value := id }] }
    match linkedRecord with
    | none => M.err (.thrown "Linked record not found")
    | some _ => checkIds w fuel ltable rest

/-- The foreign-key loop shared by `createOne` and `updateOne`: for every
foreign-key column with a truthy value, coerce the value to a list in
place, locate the matching relation by `org_column` (a missing relation
dereferences `undefined`), and check every linked id. -/
def validateLinks (w : World) (fuel : Nat) (schema : Schema) :
    List Column → RecordObj → M RecordObj
  | [], data => pure data
  | col :: rest, data =>
    if col.foreign_key && jsTruthy (objGet data col.field) then
      let vals := match objGet data col.field with
        | .arr xs => xs
        | v => [v]
      let data' := objSet data col.field (.arr vals)
      match schema.relations.find? (fun rel => rel.org_column == col.field) with
      | none => M.err (.typeError "Cannot read properties of undefined reading table")
      | some rel => do
        checkIds w fuel rel.table vals
        validateLinks w fuel schema rest data'
    else validateLinks w fuel schema rest data

/-- `createOne`: validate the foreign keys, then send the create request.
The modelled backend always echoes the created record with a fresh id,
so the `Record not created` arm is kept only for shape. -/
def createOne (w : World) (fuel : Nat) (opts : CreateOneOptions) : M RecordObj :=
  M.wrapErrors do
    let data ← validateLinks w fuel opts.schema opts.schema.columns opts.data
    M.tell (.createRec opts.schema.table data)
    let result : List AirRecord := [⟨w.createdId, data⟩]
    if result.length == 0 then M.err (.thrown "Record not created")
    else pure (("id", JsVal.str w.createdId) :: data)

/-- PATCH semantics of the modelled backend: merge the updated fields
into the stored record and echo the id; a missing record is an HTTP 404
that `createRequest` swallows. -/
def objMerge (old new : RecordObj) : RecordObj :=
  old.map (fun kv =>
    match new.find? (fun nv => nv.1 == kv.1) with
    | some nv => nv
    | none => kv) ++
  new.filter (fun nv => !(old.any (fun kv => kv.1 == nv.1)))

def servePatch (w : World) (table : String) (id : String) (data : RecordObj) :
    Option AirRecord :=
  (w.getRecord table id).map (fun r => ⟨id, objMerge r.fields data⟩)

/-- `updateOne`: strip a truthy primary-key value from the payload,
validate the foreign keys, send the PATCH and check the echoed id. -/
def updateOne (w : World) (fuel : Nat) (opts : UpdateOneOptions) : M RecordObj :=
  let data := if jsTruthy (objGet opts.data opts.schema.primary_key) then
      jsDeleteKey opts.data opts.schema.primary_key
    else opts.data
  M.wrapErrors do
    let data ← validateLinks w fuel opts.schema opts.schema.columns data
    M.tell (.patchRec opts.schema.table opts.id data)
    match servePatch w opts.schema.table opts.id data with
    | none => M.err (.typeError "Cannot read properties of undefined reading id")
    | some res =>
      if res.id == "" then M.err (.thrown "Record not updated")
      else pure (("id", JsVal.str res.id) :: res.fields)

/-- Replace the first occurrence of a character, as JavaScript
`s.replace('T', ' ')` does for string patterns. -/
def replaceFirstChar : List Char → Char → Char → List Char
  | [], _, _ => []
  | c :: cs, a, b => if c == a then b :: cs else c :: replaceFirstChar cs a b

/-- `new Date().toISOString().slice(0, 19).replace('T', ' ')`. -/
def airtableTimestamp (iso : String) : String :=
  String.mk (replaceFirstChar (iso.toList.take 19) 'T' ' ')

/-- DELETE semantics of the modelled backend: echo the id of an existing
record, 404 otherwise. -/
def serveDelete (w : World) (table : String) (id : String) : Option String :=
  (w.getRecord table id).map (fun _ => id)

/-- `deleteOne`: with a configured soft-delete column, delegate to
`updateOne` writing the formatted current timestamp into that column
and report `\x7bdeleted: 1\x7d` when an id is echoed; otherwise issue the
hard delete.  When no id comes back the source returns `undefined`. -/
def deleteOne (w : World) (fuel : Nat) (opts : DeleteOneOptions) : M (Option DeleteResp) :=
  M.wrapErrors do
    match opts.softDelete with
    | some sd => do
      let result ← updateOne w fuel
        { id := opts.id, schema := opts.schema,
          data := [(sd, .str (airtableTimestamp w.nowISO))] }
      if jsTruthy (objGet result "id") then pure (some ⟨1⟩) else pure none
    | none => do
      M.tell (.deleteRec opts.schema.table opts.id)
      match serveDelete w opts.schema.table opts.id with
      | none => M.err (.typeError "Cannot read properties of undefined reading id")
      | some rid =>
        if rid ≠ "" then pure (some ⟨1⟩) else pure none

/-- Catalog for claim C8: `Orders.CustomerId` links to `Customers`. -/
def c8Tables : List AirTable :=
  [⟨"tblO", "Orders", [⟨"CustomerId", .MULTIPLE_RECORD_LINKS, "tblC"⟩]⟩,
   ⟨"tblC", "Customers", []⟩]

/-- World for claim C8: the link target `rec999` does not exist. -/
def c8World : World :=
  { tables := c8Tables, filtered := fun _ _ => [], getRecord := fun _ _ => none }

/-- The schema of `Orders` as `getSchema` produces it. -/
def c8Schema : Schema :=
  ⟨"Orders",
   [idCol, mkColFromField ⟨"CustomerId", .MULTIPLE_RECORD_LINKS, "tblC"⟩],
   "id",
   [⟨"Customers", "id", "Orders", "CustomerId"⟩]⟩

/-- The hand-written `c8Schema` is exactly what the Schema Resolver
produces for `Orders` over this catalog. -/
theorem c8Schema_from_catalog : gsCompute c8Tables "Orders" = .ok c8Schema := rfl

/-- Claim C8, evaluated at the failing input: `createOne` with the
dangling link `rec999` fails before any write request is sent (the
trace holds only the schema fetch and the point lookup, no create), but
the error is a wrapped TypeError — `createRequest` swallows the 404 of
the lookup and returns `undefined`, `findOne` dereferences it, and the
`Linked record not found` throw is never reached. -/
theorem c8_bug :
    createOne c8World 2 ⟨c8Schema, [("CustomerId", JsVal.str "rec999")]⟩ [] =
      (.error (.wrapped (.wrapped (.typeError "Cannot read properties of undefined reading id"))),
       [Req.metaTables, Req.getRec "Customers" "rec999"]) ∧
    ([Req.metaTables, Req.getRec "Customers" "rec999"]).filter (fun r => isWriteReq r) = [] ∧
    JsErr.wrapped (.wrapped (.typeError "Cannot read properties of undefined reading id")) ≠
      JsErr.wrapped (.thrown "Linked record not found") := by
  refine ⟨rfl, rfl, ?_⟩
  intro h
  exact absurd h (by decide)

/-! ## Claim C9: soft delete -/

/-- An ISO 8601 timestamp prefix `YYYY-MM-DDTHH:mm:ss` (what
`Date.toISOString` produces before the millisecond part). -/
def isIsoStamp (s : String) : Bool :=
  match s.toList with
  | y1 :: y2 :: y3 :: y4 :: d1 :: mo1 :: mo2 :: d2 :: dd1 :: dd2 :: tt ::
      hh1 :: hh2 :: c1 :: mi1 :: mi2 :: c2 :: s1 :: s2 :: _ =>
    y1.isDigit && y2.isDigit && y3.isDigit && y4.isDigit && d1 == '-' &&
    mo1.isDigit && mo2.isDigit && d2 == '-' && dd1.isDigit && dd2.isDigit &&
    tt == 'T' && hh1.isDigit && hh2.isDigit && c1 == ':' && mi1.isDigit &&
    mi2.isDigit && c2 == ':' && s1.isDigit && s2.isDigit
  | _ => false

/-- The timestamp pattern `YYYY-MM-DD HH:mm:ss` of the specification:
exactly nineteen characters, digits in the date and time positions, two
dashes, one space, two colons, and no timezone suffix. -/
def tsPattern (s : String) : Bool :=
  match s.toList with
  | [y1, y2, y3, y4, d1, mo1, mo2, d2, dd1, dd2, sp,
     hh1, hh2, c1, mi1, mi2, c2, s1, s2] =>
    y1.isDigit && y2.isDigit && y3.isDigit && y4.isDigit && d1 == '-' &&
    mo1.isDigit && mo2.isDigit && d2 == '-' && dd1.isDigit && dd2.isDigit &&
    sp == ' ' && hh1.isDigit && hh2.isDigit && c1 == ':' && mi1.isDigit &&
    mi2.isDigit && c2 == ':' && s1.isDigit && s2.isDigit
  | _ => false

theorem digit_ne_T (c : Char) (h : c.isDigit = true) : (c == 'T') = false := by
  cases hbc : (c == 'T') with
  | false => rfl
  | true =>
    have hc : c = 'T' := eq_of_beq hbc
    rw [hc] at h
    exact absurd h (by decide)

/-- Slicing an ISO timestamp to nineteen characters and replacing the
`T` with a space yields a string matching the specification's
`YYYY-MM-DD HH:mm:ss` pattern. -/
theorem iso_to_tsPattern (s : String) (h : isIsoStamp s = true) :
    tsPattern (airtableTimestamp s) = true := by
  unfold isIsoStamp at h
  split at h
  case h_2 => exact absurd h (by decide)
  case h_1 y1 y2 y3 y4 d1 mo1 mo2 d2 dd1 dd2 tt hh1 hh2 c1 mi1 mi2 c2 s1 s2 rest heq =>
    simp only [Bool.and_eq_true, and_assoc] at h
    obtain ⟨hy1, hy2, hy3, hy4, hd1, hmo1, hmo2, hd2, hdd1, hdd2, htt,
      hhh1, hhh2, hc1, hmi1, hmi2, hc2, hs1, hs2⟩ := h
    have ed1 : d1 = '-' := eq_of_beq hd1
    have ed2 : d2 = '-' := eq_of_beq hd2
    have ett : tt = 'T' := eq_of_beq htt
    have ec1 : c1 = ':' := eq_of_beq hc1
    have ec2 : c2 = ':' := eq_of_beq hc2
    subst ed1 ed2 ett ec1 ec2
    rw [airtableTimestamp, heq]
    show tsPattern (String.mk (replaceFirstChar
      [y1, y2, y3, y4, '-', mo1, mo2, '-', dd1, dd2, 'T',
       hh1, hh2, ':', mi1, mi2, ':', s1, s2] 'T' ' ')) = true
    simp only [replaceFirstChar, digit_ne_T _ hy1, digit_ne_T _ hy2, digit_ne_T _ hy3,
      digit_ne_T _ hy4, digit_ne_T _ hmo1, digit_ne_T _ hmo2, digit_ne_T _ hdd1,
      digit_ne_T _ hdd2, Bool.false_eq_true, if_false,
      (by decide : (('-' == 'T') : Bool) = false),
      (by decide : (('T' == 'T') : Bool) = true), if_true]
    show (y1.isDigit && y2.isDigit && y3.isDigit && y4.isDigit && ('-' == '-') &&
      mo1.isDigit && mo2.isDigit && ('-' == '-') && dd1.isDigit && dd2.isDigit &&
      (' ' == ' ') && hh1.isDigit && hh2.isDigit && (':' == ':') && mi1.isDigit &&
      mi2.isDigit && (':' == ':') && s1.isDigit && s2.isDigit) = true
    simp only [Bool.and_eq_true, and_assoc]
    refine ⟨hy1, hy2, hy3, hy4, by decide, hmo1, hmo2, by decide, hdd1, hdd2,
      by decide, hhh1, hhh2, by decide, hmi1, hmi2, by decide, hs1, hs2⟩

/-- Strings do not beq symmetrically only when unequal; flip a negative
beq fact. -/
theorem beq_false_symm (a b : String) (h : (a == b) = false) : (b == a) = false := by
  cases hx : (b == a) with
  | false => rfl
  | true =>
    have : b = a := eq_of_beq hx
    rw [this, beq_self_eq_true] at h
    exact absurd h (by simp)

/-- The foreign-key loop does nothing on a payload holding only the
soft-delete column when no foreign-key column carries that name. -/
theorem validateLinks_skip (w : World) (fuel : Nat) (schema : Schema) (sd : String) (v : JsVal)
    (cols : List Column)
    (h : ∀ c ∈ cols, c.foreign_key = true → (c.field == sd) = false) :
    validateLinks w fuel schema cols [(sd, v)] = pure [(sd, v)] := by
  induction cols with
  | nil => rfl
  | cons c rest ih =>
    rw [validateLinks]
    have hcase : (c.foreign_key && jsTruthy (objGet [(sd, v)] c.field)) = false := by
      cases hfk : c.foreign_key with
      | false => rfl
      | true =>
        have hne := h c (List.mem_cons_self c rest) hfk
        have hne' : (sd == c.field) = false := beq_false_symm _ _ hne
        simp [objGet, List.find?, hne', jsTruthy]
    rw [hcase]
    simp only [Bool.false_eq_true, if_false]
    exact ih (fun c hc hfk => h c (List.mem_cons_of_mem _ hc) hfk)

/-- Claim C9: with a soft-delete column configured, on an existing
record, `deleteOne` delegates to `updateOne` — the one request issued
is a PATCH writing the current timestamp, formatted
`YYYY-MM-DD HH:mm:ss` with no timezone suffix, into that column (no
hard DELETE request appears in the trace) — and returns
`\x7bdeleted: 1\x7d`. -/
theorem c9_softdelete (w : World) (fuel : Nat) (opts : DeleteOneOptions) (sd : String)
    (r : AirRecord) (t : List Req)
    (h1 : opts.softDelete = some sd)
    (h2 : (sd == opts.schema.primary_key) = false)
    (h3 : ∀ c ∈ opts.schema.columns, c.foreign_key = true → (c.field == sd) = false)
    (h4 : w.getRecord opts.schema.table opts.id = some r)
    (h5 : (opts.id == "") = false)
    (h6 : isIsoStamp w.nowISO = true) :
    deleteOne w fuel opts t =
      (.ok (some ⟨1⟩),
       t ++ [Req.patchRec opts.schema.table opts.id
         [(sd, .str (airtableTimestamp w.nowISO))]]) ∧
    tsPattern (airtableTimestamp w.nowISO) = true := by
  refine ⟨?_, iso_to_tsPattern _ h6⟩
  have hne : ¬ (opts.id = "") := by
    intro he
    rw [he, beq_self_eq_true] at h5
    exact absurd h5 (by simp)
  have hupd : updateOne w fuel
      { id := opts.id, schema := opts.schema,
        data := [(sd, .str (airtableTimestamp w.nowISO))] } t =
      (.ok (("id", JsVal.str opts.id) ::
        objMerge r.fields [(sd, .str (airtableTimestamp w.nowISO))]),
       t ++ [Req.patchRec opts.schema.table opts.id
         [(sd, .str (airtableTimestamp w.nowISO))]]) := by
    rw [updateOne]
    have hkeep : jsTruthy (objGet [(sd, JsVal.str (airtableTimestamp w.nowISO))]
        opts.schema.primary_key) = false := by
      simp [objGet, List.find?, h2, jsTruthy]
    simp only [hkeep, Bool.false_eq_true, if_false]
    rw [validateLinks_skip w fuel opts.schema sd _ opts.schema.columns h3]
    simp only [M.wrapErrors, M.bind_def, M.pure_def, M.tell, M.err, servePatch, h4,
      Option.map_some']
    have hid : (opts.id == "") = false := h5
    simp only [hid, Bool.false_eq_true, if_false]
  rw [deleteOne, h1]
  simp only [M.wrapErrors, M.bind_def, M.pure_def]
  rw [hupd]
  have htr : jsTruthy (objGet (("id", JsVal.str opts.id) ::
      objMerge r.fields [(sd, .str (airtableTimestamp w.nowISO))]) "id") = true := by
    simp [objGet, List.find?, jsTruthy, hne]
  simp only [htr, if_true]

/-- World for the C9 witness: table `T` holds `rec1` and the clock reads
`2025-03-04T05:06:07.000Z`. -/
def c9World : World :=
  { tables := [], filtered := fun _ _ => [],
    getRecord := fun t i => if t == "T" && i == "rec1" then some ⟨"rec1", []⟩ else none,
    nowISO := "2025-03-04T05:06:07.000Z" }

def c9Opts : DeleteOneOptions :=
  { id := "rec1", schema := ⟨"T", [idCol, strCol "deletedAt"], "id", []⟩,
    softDelete := some "deletedAt" }

/-- Witness for C9: the soft delete of `rec1` issues exactly one PATCH
writing `2025-03-04 05:06:07` into `deletedAt` and returns
`\x7bdeleted: 1\x7d`. -/
theorem c9_softdelete_witness :
    deleteOne c9World 1 c9Opts [] =
      (.ok (some ⟨1⟩),
       [Req.patchRec "T" "rec1" [("deletedAt", JsVal.str "2025-03-04 05:06:07")]]) ∧
    tsPattern "2025-03-04 05:06:07" = true :=
  c9_softdelete c9World 1 c9Opts "deletedAt" ⟨"rec1", []⟩ [] rfl rfl
    (by
      intro c hc hfk
      have hcc : c = idCol ∨ c = strCol "deletedAt" := by simpa [c9Opts] using hc
      rcases hcc with h | h <;> rw [h] at hfk <;> exact absurd hfk (by decide))
    rfl rfl rfl

end LlanaAirtable
